import Mathlib

/-!
Shallow embedding of the core of `gmail_attachment_downloader`
(`src/gmail_attachment_downloader/__main__.py`): the attachment extractor
(`msg_has_attachment`, `get_attachment_msgs` over `Message.walk`), the
filename sanitizer (`sanitize_filename`), the random-suffix generator
(`generate_random_string`) and the unused-name resolver
(`find_unused_filename`), together with proofs of the specified properties.

Python strings are `String`, `None`-able strings are `Option String`,
the filesystem state seen by the resolver is a `DirState` (whether the
target directory exists, and the names of its entries), and the stream of
random draws consumed by the resolver's retry loop is a function
`Nat → List Nat` giving the index choices of each successive
`random.choices` call.  The unbounded `while True` loop is given explicit
fuel and returns `Option String`.
-/

namespace GmailAttachmentDownloader

/-- `string.ascii_letters` from the Python standard library. -/
def ascii_letters : String :=
  "abcdefghijklmnopqrstuvwxyzABCDEFGHIJKLMNOPQRSTUVWXYZ"

/-- `string.digits` from the Python standard library. -/
def ascii_digits : String := "0123456789"

/-- `allowed_chars = string.ascii_letters + string.digits + "_.-"`
(line 183 of `__main__.py`). -/
def allowed_chars : String := ascii_letters ++ ascii_digits ++ "_.-"

/-- The per-character generator expression of line 186:
`c if c in allowed_chars else "_"`. -/
def sanitize_step (c : Char) : Char :=
  if c ∈ allowed_chars.data then c else '_'

/-- `sanitize_filename` (lines 179–187): replace every character not in
`allowed_chars` with an underscore, one character at a time. -/
def sanitize_filename (filename : String) : String :=
  ⟨filename.data.map sanitize_step⟩

/-- The population `string.ascii_letters + string.digits` that
`generate_random_string` draws from (line 194). -/
def alphanum_chars : String := ascii_letters ++ ascii_digits

/-- `generate_random_string` (lines 190–194): `random.choices` returns a
list of elements drawn from the population; we model the randomness as the
list of drawn indices `picks` (for the default length, `picks` has 6
elements, each below the population size). -/
def generate_random_string (picks : List Nat) : String :=
  ⟨picks.map (fun i => alphanum_chars.data.getD i 'a')⟩

/-- Index of the last `'.'` in a character list (`str.rfind('.')`,
returning `none` for Python's `-1`). -/
def lastDotIdx (cs : List Char) : Option Nat :=
  ((List.range cs.length).filter (fun i => cs.getD i ' ' = '.')).getLast?

/-- `pathlib.PurePath(s).suffix` for a separator-free `s`: the part of the
name from its last dot, provided that dot is neither the first nor the
last character; otherwise the empty string. -/
def pySuffix (s : String) : String :=
  match lastDotIdx s.data with
  | some i => if 0 < i ∧ i < s.data.length - 1 then ⟨s.data.drop i⟩ else ""
  | none => ""

/-- `pathlib.PurePath(s).stem` for a separator-free `s`: the name up to
its last dot under the same proviso; otherwise the whole name. -/
def pyStem (s : String) : String :=
  match lastDotIdx s.data with
  | some i => if 0 < i ∧ i < s.data.length - 1 then ⟨s.data.take i⟩ else s
  | none => s

/-- A parsed MIME message part: the values the core reads from Python's
`mailbox.Message` interface — `get_content_type()` (a string),
`get("Content-Disposition")` (a string or `None`), `get_filename()` (a
string or `None`) — together with the ordered sub-parts that `walk()`
recurses into. -/
inductive Message where
  | mk (contentType : String) (contentDisposition : Option String)
      (filename : Option String) (children : List Message) : Message

/-- `msg.get_content_type()`. -/
def Message.contentType : Message → String
  | .mk ct _ _ _ => ct

/-- `msg.get("Content-Disposition")`. -/
def Message.contentDisposition : Message → Option String
  | .mk _ cd _ _ => cd

/-- `msg.get_filename()`. -/
def Message.filename : Message → Option String
  | .mk _ _ fn _ => fn

/-- The sub-parts of a multipart container (empty for a leaf part). -/
def Message.children : Message → List Message
  | .mk _ _ _ cs => cs

mutual

/-- `Message.walk()` from the `email` library: pre-order traversal —
yield the part itself, then walk each sub-part in order. -/
def Message.walk : Message → List Message
  | .mk ct cd fn cs => .mk ct cd fn cs :: walkList cs

/-- `walk` mapped over a list of sub-parts, concatenated in order. -/
def walkList : List Message → List Message
  | [] => []
  | m :: ms => m.walk ++ walkList ms

end

/-- Python truthiness of a `str | None` value: `None` and the empty
string are falsy, every other string is truthy. -/
def truthyStr : Option String → Bool
  | none => false
  | some s => !(s == "")

/-- `msg_has_attachment` (lines 149–154): the content type is not the
literal string `"multipart"`, the `Content-Disposition` header is truthy,
and the declared filename is truthy. -/
def msg_has_attachment (msg : Message) : Bool :=
  !(msg.contentType == "multipart")
    && truthyStr msg.contentDisposition
    && truthyStr msg.filename

/-- `get_attachment_msgs` (lines 157–165): with no MIME filter, yield
every node of the walk; with a filter, yield the nodes that pass
`msg_has_attachment` and whose content type equals the filter exactly. -/
def get_attachment_msgs (msg : Message) (mime_type : Option String) : List Message :=
  match mime_type with
  | none => msg.walk
  | some t => msg.walk.filter (fun m => msg_has_attachment m && m.contentType == t)

/-- The filesystem state the resolver consults: whether the target
directory exists, and the names of the entries inside it (when it
exists). -/
structure DirState where
  dirExists : Bool
  entries : List String
deriving DecidableEq

/-- `(pathlib.Path(folder) / fname).exists()` for a separator-free
`fname`.  `pathlib` drops `"."` path components, so `folder / "."` is the
folder itself; `folder / ".."` resolves through the folder, so it exists
exactly when the folder does; any other name is an entry of the folder,
which can only exist when the folder does. -/
def pathExists (d : DirState) (fname : String) : Bool :=
  if fname = "." ∨ fname = ".." then d.dirExists
  else d.dirExists && d.entries.contains fname

/-- `ensure_directory_exists` (lines 168–176): create the directory
(empty) when it does not already exist. -/
def ensure_directory_exists (d : DirState) : DirState :=
  if d.dirExists then d else ⟨true, []⟩

/-- Python truthiness of the `file_ext` argument (`not file_ext` is true
exactly when `file_ext` is `None` or empty). -/
def fileExtTruthy : Option String → Bool
  | none => false
  | some s => !(s == "")

/-- The `base_name` of line 209: the stem of the sanitized filename. -/
def baseOf (payload_fname : String) : String :=
  pyStem (sanitize_filename payload_fname)

/-- The `ext` of lines 209–215: the suffix of the sanitized filename,
then `ext = f".{ext}" if not file_ext else f".{file_ext}"` — a period is
prefixed to the detected suffix when `file_ext` is falsy, and to
`file_ext` itself otherwise. -/
def extOf (payload_fname : String) (file_ext : Option String) : String :=
  if fileExtTruthy file_ext then "." ++ file_ext.getD ""
  else "." ++ pySuffix (sanitize_filename payload_fname)

/-- The candidate filename tried at a given value of `counter`
(lines 220–222): `base + ext` for `counter = 1`, and
`base + "_" + generate_random_string() + ext` afterwards; the call at
`counter = k + 2` consumes the `k`-th random draw. -/
def candidateAt (base ext : String) (picks : Nat → List Nat) (counter : Nat) : String :=
  if counter > 1 then base ++ "_" ++ generate_random_string (picks (counter - 2)) ++ ext
  else base ++ ext

/-- The `while True` loop of lines 218–226, with explicit fuel: try the
candidate for the current `counter`; return it if it does not exist,
otherwise retry with `counter + 1`. -/
def fname_loop (base ext : String) (d : DirState) (picks : Nat → List Nat) :
    Nat → Nat → Option String
  | 0, _ => none
  | fuel + 1, counter =>
    if pathExists d (candidateAt base ext picks counter) then
      fname_loop base ext d picks fuel (counter + 1)
    else some (candidateAt base ext picks counter)

/-- `find_unused_filename` (lines 197–226): sanitize the payload
filename, split it into stem and suffix, compute the effective extension,
and loop from `counter = 1` until an unused name is found. -/
def find_unused_filename (payload_fname : String) (file_ext : Option String)
    (d : DirState) (picks : Nat → List Nat) (fuel : Nat) : Option String :=
  fname_loop (baseOf payload_fname) (extOf payload_fname file_ext) d picks fuel 1

/-- A fixed stream of random draws: every call of `random.choices` picks
the indices 0, 1, 2, 26, 52, 61, spelling `"abcA09"`. -/
def picks0 : Nat → List Nat := fun _ => [0, 1, 2, 26, 52, 61]

/-- A leaf part that is a PNG attachment. -/
def leafPng : Message := .mk "image/png" (some "attachment") (some "a.png") []

/-- A leaf part that is an inline text body (no disposition, no name). -/
def leafTxt : Message := .mk "text/plain" none none []

/-- A two-leaf multipart message. -/
def sampleTree : Message := .mk "multipart/mixed" none none [leafPng, leafTxt]

/-- A multipart container that itself carries a disposition header and a
declared filename. -/
def containerPart : Message :=
  .mk "multipart/mixed" (some "attachment") (some "x.bin") [leafTxt]

/-- A leaf part whose declared filename is a single space: non-null but
blank after trimming. -/
def blankNamePart : Message := .mk "image/png" (some "attachment") (some " ") []

/-- A message holding `blankNamePart` as its only sub-part. -/
def blankNameTree : Message := .mk "multipart/mixed" none none [blankNamePart]

/-! ## Helper lemmas -/

theorem sanitize_step_mem (c : Char) : sanitize_step c ∈ allowed_chars.data := by
  unfold sanitize_step
  by_cases h : c ∈ allowed_chars.data
  · simp [h]
  · simp [h]
    decide

theorem sanitize_step_idem (c : Char) :
    sanitize_step (sanitize_step c) = sanitize_step c := by
  unfold sanitize_step
  by_cases h : c ∈ allowed_chars.data
  · simp [h]
  · simp [h]

theorem generate_random_string_length (picks : List Nat) (h : picks.length = 6) :
    (generate_random_string picks).length = 6 := by
  show (picks.map _).length = 6
  simpa using h

theorem generate_random_string_alnum (picks : List Nat) :
    ∀ c ∈ (generate_random_string picks).data, c ∈ alphanum_chars.data := by
  intro c hc
  obtain ⟨i, _, rfl⟩ := List.mem_map.mp hc
  by_cases hi : i < alphanum_chars.data.length
  · rw [List.getD_eq_getElem _ _ hi]
    exact List.getElem_mem _
  · rw [List.getD_eq_default _ _ (Nat.le_of_not_lt hi)]
    decide

theorem fname_loop_not_exists (base ext : String) (d : DirState)
    (picks : Nat → List Nat) :
    ∀ fuel counter r, fname_loop base ext d picks fuel counter = some r →
      pathExists d r = false := by
  intro fuel
  induction fuel with
  | zero => intro counter r h; simp [fname_loop] at h
  | succ n ih =>
    intro counter r h
    unfold fname_loop at h
    by_cases hx : pathExists d (candidateAt base ext picks counter) = true
    · rw [if_pos hx] at h
      exact ih (counter + 1) r h
    · rw [if_neg hx] at h
      obtain rfl := Option.some.inj h
      exact Bool.eq_false_iff.mpr hx

theorem fname_loop_shape (base ext : String) (d : DirState)
    (picks : Nat → List Nat) :
    ∀ fuel counter r, fname_loop base ext d picks fuel counter = some r →
      ∃ j, counter ≤ j ∧ r = candidateAt base ext picks j := by
  intro fuel
  induction fuel with
  | zero => intro counter r h; simp [fname_loop] at h
  | succ n ih =>
    intro counter r h
    unfold fname_loop at h
    by_cases hx : pathExists d (candidateAt base ext picks counter) = true
    · rw [if_pos hx] at h
      obtain ⟨j, hj, hr⟩ := ih (counter + 1) r h
      exact ⟨j, Nat.le_of_succ_le hj, hr⟩
    · rw [if_neg hx] at h
      exact ⟨counter, Nat.le_refl _, (Option.some.inj h).symm⟩

/-! ## Claim theorems -/

/-- Claim C2: for every string `s`, `sanitize_filename s` has the same
length as `s`, every character of the result is in the allow-list of
ASCII letters, digits, underscore, period and hyphen, each character is
mapped one-for-one by the per-character rule, and the result contains no
directory separator (`/` or `\`). -/
theorem sanitize_allowlist (s : String) :
    (sanitize_filename s).length = s.length
    ∧ (∀ c ∈ (sanitize_filename s).data, c ∈ allowed_chars.data)
    ∧ (∀ i : Nat, (sanitize_filename s).data[i]? = (s.data[i]?).map sanitize_step)
    ∧ '/' ∉ (sanitize_filename s).data ∧ '\\' ∉ (sanitize_filename s).data := by
  refine ⟨?_, ?_, ?_, ?_, ?_⟩
  · show (s.data.map sanitize_step).length = s.data.length
    simp
  · intro c hc
    obtain ⟨a, _, rfl⟩ := List.mem_map.mp hc
    exact sanitize_step_mem a
  · intro i
    show (s.data.map sanitize_step)[i]? = _
    simp [List.getElem?_map]
  · intro h
    obtain ⟨a, _, ha⟩ := List.mem_map.mp h
    have hm := sanitize_step_mem a
    rw [ha] at hm
    exact absurd hm (by decide)
  · intro h
    obtain ⟨a, _, ha⟩ := List.mem_map.mp h
    have hm := sanitize_step_mem a
    rw [ha] at hm
    exact absurd hm (by decide)

/-- Witness for C2 at the concrete input `"a/b c.txt"`. -/
theorem sanitize_allowlist_witness :
    (sanitize_filename "a/b c.txt").length = ("a/b c.txt" : String).length
    ∧ '/' ∉ (sanitize_filename "a/b c.txt").data :=
  ⟨(sanitize_allowlist "a/b c.txt").1, (sanitize_allowlist "a/b c.txt").2.2.2.1⟩

/-- Claim C10: the filename sanitizer is idempotent —
`sanitize_filename (sanitize_filename s) = sanitize_filename s` for every
string `s`, because allowed characters are left unchanged and the
replacement character `_` is itself allowed. -/
theorem sanitize_idempotent (s : String) :
    sanitize_filename (sanitize_filename s) = sanitize_filename s := by
  show String.mk ((s.data.map sanitize_step).map sanitize_step)
      = String.mk (s.data.map sanitize_step)
  rw [List.map_map]
  congr 1
  apply List.map_congr_left
  intro c _
  exact sanitize_step_idem c

/-- Claim C5: with no MIME filter, `get_attachment_msgs` yields every
node of the pre-order walk — the whole walk verbatim, including the root
container and every non-qualifying node. -/
theorem extractor_passthrough_no_filter (m : Message) :
    get_attachment_msgs m none = m.walk
    ∧ m ∈ get_attachment_msgs m none
    ∧ ∀ p ∈ m.walk, p ∈ get_attachment_msgs m none := by
  refine ⟨rfl, ?_, ?_⟩
  · show m ∈ m.walk
    cases m with
    | mk ct cd fn cs => simp [Message.walk]
  · intro p hp
    exact hp

/-- Witness for C5 at the concrete two-leaf multipart tree. -/
theorem extractor_passthrough_no_filter_witness :
    get_attachment_msgs sampleTree none = sampleTree.walk
    ∧ sampleTree ∈ get_attachment_msgs sampleTree none :=
  ⟨(extractor_passthrough_no_filter sampleTree).1,
   (extractor_passthrough_no_filter sampleTree).2.1⟩

/-- Claim C4 (evaluation at the failing input): a multipart container
node whose full content type equals the MIME filter and which carries a
disposition header and a filename IS yielded by the extractor, because
`msg_has_attachment` compares the content type against the literal string
`"multipart"` while `get_content_type()` yields `"type/subtype"` strings
— contradicting the claim that a multipart container node is never
yielded when a filter is present. -/
theorem extractor_yields_multipart_container :
    get_attachment_msgs containerPart (some "multipart/mixed") = [containerPart]
    ∧ msg_has_attachment containerPart = true
    ∧ containerPart.children.length = 1 :=
  ⟨rfl, rfl, rfl⟩

/-- Counterexample to claim C7: a node whose declared filename is the
non-null but blank string `" "` is yielded by the extractor under a MIME
filter, not excluded. -/
theorem blank_filename_yielded :
    get_attachment_msgs blankNameTree (some "image/png") = [blankNamePart]
    ∧ blankNamePart.filename = some " "
    ∧ (" " : String).data.all (fun c => c.isWhitespace) = true :=
  ⟨rfl, rfl, by decide⟩

/-- Claim C7 as amended: with a MIME filter present, every yielded node
has a declared filename that is a non-empty string — only `None` and the
empty string are treated as absent; no whitespace trimming is performed,
so blank-but-non-empty filenames pass. -/
theorem filtered_filename_not_empty (root : Message) (t : String) (p : Message)
    (hp : p ∈ get_attachment_msgs root (some t)) :
    ∃ s, p.filename = some s ∧ s ≠ "" := by
  have hq := (List.mem_filter.mp hp).2
  simp only [msg_has_attachment, Bool.and_eq_true] at hq
  have h1 : truthyStr p.filename = true := hq.1.2
  cases hfn : p.filename with
  | none => rw [hfn] at h1; simp [truthyStr] at h1
  | some s =>
    rw [hfn] at h1
    refine ⟨s, rfl, ?_⟩
    simpa [truthyStr] using h1

/-- Witness for the amended C7 at the blank-filename tree. -/
theorem filtered_filename_not_empty_witness :
    blankNamePart ∈ get_attachment_msgs blankNameTree (some "image/png")
    ∧ ∃ s, blankNamePart.filename = some s ∧ s ≠ "" :=
  ⟨List.mem_cons_self _ _,
   filtered_filename_not_empty blankNameTree "image/png" blankNamePart
     (List.mem_cons_self _ _)⟩

/-- Claim C1 (evaluation at the failing input): on an empty existing
directory, `find_unused_filename "report.pdf" None` returns
`"report..pdf"` — not `"report.pdf"` — because line 215 prefixes a
period to the pathlib suffix `".pdf"`, which already contains one; after
that file is created the second call returns `"report_abcA09..pdf"`, not
a name matching `report_<6 alphanumeric>.pdf`. -/
theorem resolve_report_pdf_eval :
    find_unused_filename "report.pdf" none ⟨true, []⟩ picks0 1 = some "report..pdf"
    ∧ find_unused_filename "report.pdf" none ⟨true, ["report..pdf"]⟩ picks0 2
        = some "report_abcA09..pdf" :=
  ⟨rfl, rfl⟩

/-- Claim C3: whenever the resolver returns a name and the target
directory exists, that name is not an entry of the directory; and if the
first attempted name collides, the returned name has the shape
`base ++ "_" ++ <6-character alphanumeric suffix> ++ ext`. -/
theorem resolve_avoids_existing (payload : String) (file_ext : Option String)
    (d : DirState) (picks : Nat → List Nat) (fuel : Nat) (r : String)
    (hp : ∀ n, (picks n).length = 6) (hd : d.dirExists = true)
    (h : find_unused_filename payload file_ext d picks fuel = some r) :
    d.entries.contains r = false
    ∧ (pathExists d (baseOf payload ++ extOf payload file_ext) = true →
        ∃ k, r = baseOf payload ++ "_" ++ generate_random_string (picks k)
                  ++ extOf payload file_ext
          ∧ (generate_random_string (picks k)).length = 6
          ∧ ∀ c ∈ (generate_random_string (picks k)).data,
              c ∈ alphanum_chars.data) := by
  unfold find_unused_filename at h
  have hne := fname_loop_not_exists _ _ d picks fuel 1 r h
  obtain ⟨j, hj, hr⟩ := fname_loop_shape _ _ d picks fuel 1 r h
  constructor
  · unfold pathExists at hne
    by_cases hdot : r = "." ∨ r = ".."
    · rw [if_pos hdot, hd] at hne
      cases hne
    · rw [if_neg hdot, hd] at hne
      simpa using hne
  · intro hcol
    rcases Nat.lt_or_ge 1 j with hj2 | hj1
    · refine ⟨j - 2, ?_, generate_random_string_length _ (hp (j - 2)),
        generate_random_string_alnum _⟩
      rw [hr]
      unfold candidateAt
      rw [if_pos hj2]
    · have hj1' : j = 1 := Nat.le_antisymm hj1 hj
      rw [hj1'] at hr
      have hc1 : candidateAt (baseOf payload) (extOf payload file_ext) picks 1
          = baseOf payload ++ extOf payload file_ext := rfl
      rw [hc1] at hr
      rw [hr] at hne
      rw [hne] at hcol
      cases hcol

/-- Witness for C3: on a directory containing `"a..txt"`, resolving
`"a.txt"` returns `"a_abcA09..txt"`, which is not an entry. -/
theorem resolve_avoids_existing_witness :
    (⟨true, ["a..txt"]⟩ : DirState).dirExists = true
    ∧ (["a..txt"] : List String).contains "a_abcA09..txt" = false :=
  ⟨rfl, (resolve_avoids_existing "a.txt" none ⟨true, ["a..txt"]⟩ picks0 3
    "a_abcA09..txt" (fun _ => rfl) rfl rfl).1⟩

/-- Claim C6: when a non-empty extension is declared, the effective
extension is the declared one preceded by a period, and the returned name
is built from the stem of the sanitized candidate (its own detected
extension discarded), either directly or with a random infix. -/
theorem resolve_declared_ext_overrides (payload e : String) (d : DirState)
    (picks : Nat → List Nat) (fuel : Nat) (r : String)
    (he : e ≠ "")
    (h : find_unused_filename payload (some e) d picks fuel = some r) :
    extOf payload (some e) = "." ++ e
    ∧ (r = baseOf payload ++ ("." ++ e)
       ∨ ∃ k, r = baseOf payload ++ "_" ++ generate_random_string (picks k)
                    ++ ("." ++ e)) := by
  have hext : extOf payload (some e) = "." ++ e := by
    unfold extOf fileExtTruthy
    simp [he]
  refine ⟨hext, ?_⟩
  unfold find_unused_filename at h
  rw [hext] at h
  obtain ⟨j, hj, hr⟩ := fname_loop_shape _ _ d picks fuel 1 r h
  rcases Nat.lt_or_ge 1 j with hj2 | hj1
  · right
    refine ⟨j - 2, ?_⟩
    rw [hr]
    unfold candidateAt
    rw [if_pos hj2]
  · left
    have hj1' : j = 1 := Nat.le_antisymm hj1 hj
    rw [hj1'] at hr
    rw [hr]
    rfl

/-- Witness for C6 at `payload = "report.pdf"`, declared extension
`"pdf"`: the effective extension is `".pdf"`. -/
theorem resolve_declared_ext_overrides_witness :
    ("pdf" : String) ≠ ""
    ∧ extOf "report.pdf" (some "pdf") = "." ++ "pdf" :=
  ⟨by decide,
   (resolve_declared_ext_overrides "report.pdf" "pdf" ⟨true, []⟩ picks0 1
     "report.pdf" (by decide) rfl).1⟩

/-- Counterexample to claim C8: with an empty candidate and no declared
extension, the resolver returns `"_abcA09."` — a name that does not start
with `"attachment"`; no `attachment<counter>` fallback exists in the
code. -/
theorem resolve_empty_candidate_eval :
    find_unused_filename "" none ⟨true, []⟩ picks0 5 = some "_abcA09."
    ∧ ("_abcA09." : String).startsWith "attachment" = false :=
  ⟨by decide, by decide⟩

/-- Claim C8 as amended: with an empty candidate and no declared
extension, the first attempted name is `"."`, which always exists when
the target directory does (pathlib collapses it to the directory itself),
so any returned name is `"_" ++ <random suffix> ++ "."`. -/
theorem resolve_empty_candidate_shape (d : DirState) (picks : Nat → List Nat)
    (fuel : Nat) (r : String) (hd : d.dirExists = true)
    (h : find_unused_filename "" none d picks fuel = some r) :
    ∃ k, r = "_" ++ generate_random_string (picks k) ++ "." := by
  unfold find_unused_filename at h
  have hb : baseOf "" = "" := rfl
  have he : extOf "" none = "." := rfl
  rw [hb, he] at h
  obtain ⟨j, hj, hr⟩ := fname_loop_shape "" "." d picks fuel 1 r h
  have hne := fname_loop_not_exists "" "." d picks fuel 1 r h
  rcases Nat.lt_or_ge 1 j with hj2 | hj1
  · refine ⟨j - 2, ?_⟩
    rw [hr]
    unfold candidateAt
    rw [if_pos hj2]
    rfl
  · have hj1' : j = 1 := Nat.le_antisymm hj1 hj
    rw [hj1'] at hr
    have hc1 : candidateAt "" "." picks 1 = "." := rfl
    rw [hc1] at hr
    rw [hr] at hne
    have hpe : pathExists d "." = d.dirExists := rfl
    rw [hpe, hd] at hne
    cases hne

/-- Witness for the amended C8 on an existing empty directory. -/
theorem resolve_empty_candidate_shape_witness :
    (⟨true, []⟩ : DirState).dirExists = true
    ∧ ∃ k, "_abcA09." = "_" ++ generate_random_string (picks0 k) ++ "." :=
  ⟨rfl, resolve_empty_candidate_shape ⟨true, []⟩ picks0 5 "_abcA09." rfl (by decide)⟩

/-- Counterexample to claim C9: when the target directory does not exist,
the resolver raises no error and returns the first attempted filename —
here `"report..pdf"` — rather than failing. -/
theorem resolve_missing_dir_returns_name :
    find_unused_filename "report.pdf" none ⟨false, ["report..pdf"]⟩ picks0 1
      = some "report..pdf"
    ∧ (⟨false, ["report..pdf"]⟩ : DirState).dirExists = false :=
  ⟨rfl, rfl⟩

/-- Claim C9 as amended: when the target directory does not exist, the
resolver treats every name as unused and returns the first attempted
name on its first iteration — it never surfaces an error; missing
directories are instead created beforehand by `ensure_directory_exists`
in the orchestrator. -/
theorem resolve_missing_dir_first_candidate (payload : String)
    (file_ext : Option String) (entries : List String)
    (picks : Nat → List Nat) (fuel : Nat) :
    find_unused_filename payload file_ext ⟨false, entries⟩ picks (fuel + 1)
      = some (baseOf payload ++ extOf payload file_ext)
    ∧ (ensure_directory_exists ⟨false, entries⟩).dirExists = true := by
  constructor
  · unfold find_unused_filename fname_loop
    have hpe : pathExists ⟨false, entries⟩
        (candidateAt (baseOf payload) (extOf payload file_ext) picks 1) = false := by
      unfold pathExists
      split <;> rfl
    rw [if_neg (by simp [hpe])]
    rfl
  · rfl

end GmailAttachmentDownloader
